import Mathlib

/-
Verification of the repository parsing and chunking pipeline
(src/parser/code_parser.py) against its specification.

Python strings are embedded as `List Char`; machine "lines" are lists of
characters.  The file-system and the external syntax-tree parser (libcst)
are collaborators outside the repository: the directory walk is embedded
as an explicit list of file entries and the parser as a function producing
either a syntax-tree value or an error, following the collaborator
contract of the spec (section 6).  All other definitions are direct
translations of the Python source.
-/

namespace CodeParser

/-- Python list slicing helper: `content.split("\n")` on a single-newline
separator.  Splitting the empty string yields one empty line, exactly as
in Python. -/
def splitNl : List Char → List (List Char)
  | [] => [[]]
  | c :: rest =>
    if c = '\n' then [] :: splitNl rest
    else
      match splitNl rest with
      | [] => [[c]]
      | l :: ls => (c :: l) :: ls

/-- Python `line.strip()`: drop leading and trailing whitespace. -/
def pyStrip (l : List Char) : List Char :=
  ((l.dropWhile Char.isWhitespace).reverse.dropWhile Char.isWhitespace).reverse

/-- Python `"\n".join(current_chunk)`. -/
def joinNl : List (List Char) → List Char
  | [] => []
  | [l] => l
  | l :: l2 :: ls => l ++ '\n' :: joinNl (l2 :: ls)

/-- A content chunk, as built by `CodeParser._chunk_content`:
the dictionary with keys content / start_line / end_line / language. -/
structure Chunk where
  content : List Char
  start_line : Nat
  end_line : Nat
  language : String
deriving DecidableEq

/-- The loop of `CodeParser._chunk_content` over the enumerated lines.
`i` is the enumeration index, `chunkStart` is `current_chunk_start` and
`cur` is `current_chunk`.  The Python close condition
`not line.strip() or i == len(lines) - 1 or len("\n".join(current_chunk)) > 1000`
is tested after the line is appended; `i == len(lines) - 1` is rendered
as `rest = []`. -/
def chunkAux (language : String) :
    List (List Char) → Nat → Nat → List (List Char) → List Chunk
  | [], _, _, _ => []
  | line :: rest, i, chunkStart, cur =>
    let cur2 := cur ++ [line]
    if pyStrip line = [] ∨ rest = [] ∨ 1000 < (joinNl cur2).length then
      (if cur2 = [] then [] else
        [{ content := joinNl cur2, start_line := chunkStart, end_line := i,
           language := language }]) ++
      chunkAux language rest (i + 1) (i + 1) []
    else
      chunkAux language rest (i + 1) chunkStart cur2

/-- `CodeParser._chunk_content`: split the content on newlines and run the
accumulation loop with all state initialised to zero / empty. -/
def _chunk_content (content : List Char) (language : String) : List Chunk :=
  chunkAux language (splitNl content) 0 0 []

/-- The multiset of line indices covered by a chunk list, in order:
each chunk contributes the interval from its start line to its end line
(inclusive). -/
def chunkSpans (cs : List Chunk) : List Nat :=
  cs.flatMap fun c => List.range' c.start_line (c.end_line + 1 - c.start_line)

/-- The chunk line spans form a gap-free chain starting at `s`: each
chunk starts where told, does not end before it starts, and the next
chunk starts one line after the previous one ends. -/
def contiguousFrom : Nat → List Chunk → Prop
  | _, [] => True
  | s, c :: cs => c.start_line = s ∧ c.start_line ≤ c.end_line ∧
      contiguousFrom (c.end_line + 1) cs

/-- A recorded function: the dictionary built by
`PythonStructureVisitor.visit_FunctionDef`. -/
structure FunctionInfo where
  name : String
  start_line : Nat
  end_line : Nat
  parameters : List String
deriving DecidableEq

/-- A recorded class: the dictionary built by
`PythonStructureVisitor.visit_ClassDef`. -/
structure ClassInfo where
  name : String
  start_line : Nat
  end_line : Nat
  methods : List FunctionInfo
  bases : List String
deriving DecidableEq

/-- A recorded import entry, one of the two dictionary shapes built by
`visit_Import` (kind "import") and `visit_ImportFrom` (kind
"import_from").  The second component of each pair models the optional
`asname` alias. -/
inductive ImportInfo where
  | plain (name : String) (asname : Option String)
  | fromImport (module : String) (name : String) (asname : Option String)
deriving DecidableEq

/-- The syntax tree delivered by the external parser, modelled at the
granularity the visitor inspects, following the collaborator contract of
the spec.  Positions are the line components of the optional
`start_pos` / `end_pos` attributes the visitor reads (absent positions are
falsy in the source and default to line 0).  A class node carries, for
each base, either its simple name or nothing when the base is a complex
expression (mirroring the `hasattr(base.value, "value")` filter); bodies
are the statement lists of the node's indented block.  Nodes with no
dedicated visitor method (conditionals, simple statement lines, ...) are
collapsed into `other` around their child statements, since only child
traversal is observable for them. -/
inductive CSTNode where
  | classDef (name : String) (start_pos end_pos : Option Nat)
      (bases : List (Option String)) (body : List CSTNode)
  | functionDef (name : String) (start_pos end_pos : Option Nat)
      (params : List String) (body : List CSTNode)
  | importStmt (names : List (String × Option String))
  | importFrom (module : List String) (names : List (String × Option String))
  | other (children : List CSTNode)

/-- A parsed module: the top-level statement list. -/
structure Module where
  body : List CSTNode

/-- The mutable state of `PythonStructureVisitor`.  `current_class` is a
Python reference to a dictionary that already sits in `classes`;
appending a method through it mutates that entry in place, so it is
embedded as an index into `classes` (entries are only ever appended or
updated in place, so indices are stable). -/
structure VState where
  classes : List ClassInfo
  functions : List FunctionInfo
  imports : List ImportInfo
  current_class : Option Nat
deriving DecidableEq

/-- Update the element at an index, leaving the list unchanged when the
index is out of range. -/
def modifyIdx {α : Type} (f : α → α) : List α → Nat → List α
  | [], _ => []
  | a :: as, 0 => f a :: as
  | a :: as, n + 1 => a :: modifyIdx f as n

/-- `PythonStructureVisitor.visit_FunctionDef`: build the function
dictionary and append it to the methods of the currently open class, or
to the module-level function list when no class is open. -/
def visit_FunctionDef (st : VState) (name : String)
    (start_pos end_pos : Option Nat) (params : List String) : VState :=
  let fi : FunctionInfo :=
    { name := name, start_line := start_pos.getD 0, end_line := end_pos.getD 0,
      parameters := params }
  match st.current_class with
  | some idx =>
      { st with classes :=
          modifyIdx (fun ci => { ci with methods := ci.methods ++ [fi] })
                    st.classes idx }
  | none => { st with functions := st.functions ++ [fi] }

/-- `PythonStructureVisitor.visit_ClassDef`: record the class (with the
simple-name bases only), save the previous class context, open this
class, call `visit_FunctionDef` on exactly the direct `FunctionDef`
statements of the class body, then restore the previous context. -/
def visit_ClassDef (st : VState) (name : String)
    (start_pos end_pos : Option Nat) (bases : List (Option String))
    (body : List CSTNode) : VState :=
  let ci : ClassInfo :=
    { name := name, start_line := start_pos.getD 0, end_line := end_pos.getD 0,
      methods := [], bases := bases.filterMap id }
  let prev := st.current_class
  let idx := st.classes.length
  let st1 : VState :=
    { st with current_class := some idx, classes := st.classes ++ [ci] }
  let st2 := body.foldl (fun s stmt =>
      match stmt with
      | CSTNode.functionDef n sp ep ps _ => visit_FunctionDef s n sp ep ps
      | _ => s) st1
  { st2 with current_class := prev }

/-- `PythonStructureVisitor.visit_Import`: one plain entry per name. -/
def visit_Import (st : VState) (names : List (String × Option String)) : VState :=
  { st with imports :=
      st.imports ++ names.map fun n => ImportInfo.plain n.1 n.2 }

/-- `PythonStructureVisitor.visit_ImportFrom`: one from-entry per name,
with the dotted module name joined by periods. -/
def visit_ImportFrom (st : VState) (module : List String)
    (names : List (String × Option String)) : VState :=
  { st with imports := st.imports ++
      names.map fun n => ImportInfo.fromImport (String.intercalate "." module) n.1 n.2 }

mutual
/-- The libcst traversal of one node: dispatch to the matching
`visit_...` method (none of which returns False), then — because a
`None` return means "do visit children" — traverse the node's children.
For a class definition this re-traverses the class body after
`visit_ClassDef` has already restored the previous class context. -/
def fvisit (st : VState) : CSTNode → VState
  | CSTNode.classDef name sp ep bases body =>
      fvisitList (visit_ClassDef st name sp ep bases body) body
  | CSTNode.functionDef name sp ep params body =>
      fvisitList (visit_FunctionDef st name sp ep params) body
  | CSTNode.importStmt names => visit_Import st names
  | CSTNode.importFrom m names => visit_ImportFrom st m names
  | CSTNode.other children => fvisitList st children

/-- Traverse a list of sibling nodes in order, threading the state. -/
def fvisitList (st : VState) : List CSTNode → VState
  | [] => st
  | n :: ns => fvisitList (fvisit st n) ns
end

/-- `module.visit(visitor)` on a fresh `PythonStructureVisitor`: traverse
the module body starting from the empty state. -/
def runVisitor (m : Module) : VState :=
  fvisitList { classes := [], functions := [], imports := [],
               current_class := none } m.body

mutual
/-- A subtree containing no class, function or import node: traversing it
cannot change the visitor state. -/
def declFree : CSTNode → Bool
  | CSTNode.classDef _ _ _ _ _ => false
  | CSTNode.functionDef _ _ _ _ _ => false
  | CSTNode.importStmt _ => false
  | CSTNode.importFrom _ _ => false
  | CSTNode.other children => declFreeList children

/-- All nodes of the list are declaration-free. -/
def declFreeList : List CSTNode → Bool
  | [] => true
  | n :: ns => declFree n && declFreeList ns
end

/-- A parsed file: the result dictionary of `parse_file`.  Keys that are
absent from the dictionary in one of the construction paths
(`error`, and the structural keys `classes` / `functions` / `imports`)
are embedded as options. -/
structure ParsedFile where
  path : String
  language : String
  content : List Char
  error : Option String
  classes : Option (List ClassInfo)
  functions : Option (List FunctionInfo)
  imports : Option (List ImportInfo)
  chunks : List Chunk
deriving DecidableEq

/-- `CodeParser._parse_python_file`.  The external parse (and tree walk)
either produces a module or fails; `Except.error` covers everything the
`except` clause catches.  On success all structural fields are populated
and there is no error key; on failure the error message is recorded and
only path/language/content/chunks are present.  Chunking happens on both
paths. -/
def _parse_python_file (path : String) (content : List Char)
    (parseResult : Except String Module) : ParsedFile :=
  match parseResult with
  | Except.ok m =>
      let v := runVisitor m
      { path := path, language := "python", classes := some v.classes,
        functions := some v.functions, imports := some v.imports,
        content := content, error := none,
        chunks := _chunk_content content "python" }
  | Except.error e =>
      { path := path, language := "python", error := some e,
        content := content, classes := none, functions := none,
        imports := none, chunks := _chunk_content content "python" }

/-- `CodeParser._parse_generic_file`: raw content plus chunks only. -/
def _parse_generic_file (path : String) (content : List Char)
    (language : String) : ParsedFile :=
  { path := path, language := language, content := content, error := none,
    classes := none, functions := none, imports := none,
    chunks := _chunk_content content language }

/-- The `supported_languages` extension table of `CodeParser.__init__`. -/
def supported_languages : List (String × String) :=
  [(".py", "python"), (".js", "javascript"), (".ts", "typescript"),
   (".java", "java"), (".cpp", "cpp"), (".c", "c"), (".go", "go"),
   (".rb", "ruby"), (".rs", "rust")]

/-- Python `str.lower()` restricted to what `Path.suffix` can contain. -/
def pyLower (s : String) : String :=
  String.mk (s.data.map Char.toLower)

/-- `self.supported_languages.get(ext)`. -/
def lookupLang (ext : String) : Option String :=
  supported_languages.lookup ext

/-- `CodeParser.parse_file`.  The file read is a collaborator effect and
is embedded as its outcome: either the content or the message of the
raised IOError.  An unsupported extension raises; a read failure
propagates; otherwise the file is dispatched on its language.
`pythonParse` is the external syntax-tree parser used for python files. -/
def parse_file (path ext : String) (readResult : Except String (List Char))
    (pythonParse : List Char → Except String Module) : Except String ParsedFile :=
  match lookupLang (pyLower ext) with
  | none => Except.error ("Unsupported file type: " ++ pyLower ext)
  | some language =>
    match readResult with
    | Except.error e => Except.error e
    | Except.ok content =>
      if language = "python" then
        Except.ok (_parse_python_file path content (pythonParse content))
      else
        Except.ok (_parse_generic_file path content language)

/-- One regular file met by the `os.walk` traversal: its path, its
`Path.suffix` extension, and the outcome of reading it. -/
structure FileEntry where
  path : String
  ext : String
  readResult : Except String (List Char)

/-- The repository-level result dictionary of `parse_repository`. -/
structure ParsedRepository where
  repository : String
  files : List ParsedFile
deriving DecidableEq

/-- `CodeParser.parse_repository`.  The root check and directory walk are
collaborator effects: a missing root is `none`, an existing root is the
list of regular files the walk enumerates.  A missing root raises before
any file is touched.  For each file whose lowered extension is in the
table, `parse_file` is invoked inside a try/except that logs and
otherwise drops the file on any exception; successes are appended in
order. -/
def parse_repository (repo_path : String) (walked : Option (List FileEntry))
    (pythonParse : List Char → Except String Module) :
    Except String ParsedRepository :=
  match walked with
  | none => Except.error ("Repository path does not exist: " ++ repo_path)
  | some files =>
    Except.ok
      { repository := repo_path,
        files := files.foldl (fun parsed_files f =>
          if (lookupLang (pyLower f.ext)).isSome then
            match parse_file f.path f.ext f.readResult pythonParse with
            | Except.ok pf => parsed_files ++ [pf]
            | Except.error _ => parsed_files
          else parsed_files) [] }

/-- Modelled from the spec: the syntax tree the external parser returns
for the concrete scenario file `a.py` with content
`"def f(x):\n    return x\n"` — one module-level function `f` with the
single parameter `x`, spanning (1-based) lines 1 to 2, whose body
contains no further declarations.  The parser itself is missing from the
sources (it is the libcst collaborator), so its output is modelled from
the spec's scenario and collaborator contract. -/
def a_py_tree : Module :=
  { body := [CSTNode.functionDef "f" (some 1) (some 2) ["x"]
      [CSTNode.other []]] }

/-- The content of the scenario file `a.py`. -/
def a_py_content : List Char := "def f(x):\n    return x\n".toList

/-- Modelled from the spec: an external parser that answers the scenario
tree for every input; `parse_repository` only applies it to the scenario
content. -/
def a_py_parse : List Char → Except String Module :=
  fun _ => Except.ok a_py_tree

/-! Helper lemmas about the chunker. -/

theorem splitNl_ne_nil : ∀ c : List Char, splitNl c ≠ []
  | [] => by simp [splitNl]
  | c :: rest => by
      simp only [splitNl]
      split
      · simp
      · split <;> simp

theorem splitNl_no_newline : ∀ (c : List Char), '\n' ∉ c → splitNl c = [c]
  | [], _ => rfl
  | ch :: rest, h => by
      simp only [List.mem_cons, not_or] at h
      have hr := splitNl_no_newline rest h.2
      have hne : ¬(ch = '\n') := fun heq => h.1 heq.symm
      simp [splitNl, hr, hne]

theorem joinNl_cons_of_ne_nil (l : List Char) {ls : List (List Char)}
    (h : ls ≠ []) : joinNl (l :: ls) = l ++ '\n' :: joinNl ls := by
  cases ls with
  | nil => exact absurd rfl h
  | cons l2 ls2 => rfl

theorem joinNl_append {as bs : List (List Char)} (ha : as ≠ []) (hb : bs ≠ []) :
    joinNl (as ++ bs) = joinNl as ++ '\n' :: joinNl bs := by
  induction as with
  | nil => exact absurd rfl ha
  | cons a as ih =>
      cases as with
      | nil =>
          simp only [List.singleton_append]
          rw [joinNl_cons_of_ne_nil a hb]
          rfl
      | cons a2 as2 =>
          have hne : a2 :: as2 ≠ [] := by simp
          rw [List.cons_append, joinNl_cons_of_ne_nil a (by simp),
              joinNl_cons_of_ne_nil a hne, ih hne]
          simp

theorem joinNl_splitNl : ∀ c : List Char, joinNl (splitNl c) = c
  | [] => rfl
  | c :: rest => by
      simp only [splitNl]
      split
      · rename_i hc
        rw [joinNl_cons_of_ne_nil [] (splitNl_ne_nil rest)]
        simp [hc, joinNl_splitNl rest]
      · rename_i hc
        split
        · rename_i heq
          exact absurd heq (splitNl_ne_nil rest)
        · rename_i l ls heq
          cases ls with
          | nil =>
              have := joinNl_splitNl rest
              rw [heq] at this
              simp only [joinNl] at this ⊢
              rw [this]
          | cons l2 ls2 =>
              have := joinNl_splitNl rest
              rw [heq] at this
              rw [joinNl_cons_of_ne_nil (c :: l) (by simp),
                  ← this, joinNl_cons_of_ne_nil l (by simp)]
              simp

theorem chunkAux_ne_nil (language : String) :
    ∀ (lines : List (List Char)) (i chunkStart : Nat) (cur : List (List Char)),
      lines ≠ [] → chunkAux language lines i chunkStart cur ≠ []
  | [], _, _, _, h => absurd rfl h
  | line :: rest, i, chunkStart, cur, _ => by
      simp only [chunkAux]
      split
      · simp
      · exact chunkAux_ne_nil language rest (i + 1) chunkStart (cur ++ [line])
          (by rename_i hc; intro hr; exact hc (Or.inr (Or.inl hr)))

theorem chunkAux_contents (language : String) :
    ∀ (lines : List (List Char)) (i chunkStart : Nat) (cur : List (List Char)),
      lines ≠ [] →
      joinNl ((chunkAux language lines i chunkStart cur).map Chunk.content) =
        joinNl (cur ++ lines)
  | [], _, _, _, h => absurd rfl h
  | line :: rest, i, chunkStart, cur, _ => by
      simp only [chunkAux]
      by_cases hc :
          pyStrip line = [] ∨ rest = [] ∨ 1000 < (joinNl (cur ++ [line])).length
      · rw [if_pos hc, if_neg (by simp : ¬(cur ++ [line] = []))]
        cases hr : rest with
        | nil =>
            subst hr
            simp [chunkAux, joinNl]
        | cons r rs =>
            have hrec := chunkAux_ne_nil language (r :: rs) (i + 1) (i + 1) []
              (by simp)
            simp only [List.singleton_append, List.map_cons]
            rw [joinNl_cons_of_ne_nil _ (by simpa using hrec)]
            have ihr := chunkAux_contents language (r :: rs) (i + 1) (i + 1) []
              (by simp)
            simp only [List.nil_append] at ihr
            rw [ihr]
            have : cur ++ line :: r :: rs = (cur ++ [line]) ++ (r :: rs) := by simp
            rw [this, @joinNl_append (cur ++ [line]) (r :: rs) (by simp) (by simp)]
      · rw [if_neg hc]
        have hrne : rest ≠ [] := fun hr => hc (Or.inr (Or.inl hr))
        have ihr := chunkAux_contents language rest (i + 1) chunkStart
          (cur ++ [line]) hrne
        rw [ihr]
        simp

theorem chunkAux_chain (language : String) :
    ∀ (lines : List (List Char)) (i chunkStart : Nat) (cur : List (List Char)),
      chunkStart + cur.length = i →
      (lines = [] → cur = []) →
      contiguousFrom chunkStart (chunkAux language lines i chunkStart cur) ∧
      chunkSpans (chunkAux language lines i chunkStart cur) =
        List.range' chunkStart (i + lines.length - chunkStart)
  | [], i, chunkStart, cur, h, hnil => by
      have hcur : cur = [] := hnil rfl
      subst hcur
      simp only [List.length_nil, Nat.add_zero] at h
      subst h
      simp [chunkAux, chunkSpans, contiguousFrom]
  | line :: rest, i, chunkStart, cur, h, _ => by
      have hle : chunkStart ≤ i := by omega
      simp only [chunkAux]
      by_cases hc :
          pyStrip line = [] ∨ rest = [] ∨ 1000 < (joinNl (cur ++ [line])).length
      · rw [if_pos hc, if_neg (by simp : ¬(cur ++ [line] = []))]
        obtain ⟨ihchain, ihspans⟩ := chunkAux_chain language rest (i + 1) (i + 1)
          [] (by simp) (fun _ => rfl)
        constructor
        · exact ⟨rfl, hle, ihchain⟩
        · simp only [List.singleton_append, chunkSpans, List.flatMap_cons]
          simp only [chunkSpans] at ihspans
          rw [ihspans]
          have key := List.range'_append_1 chunkStart (i + 1 - chunkStart)
            rest.length
          have e1 : chunkStart + (i + 1 - chunkStart) = i + 1 := by omega
          have e2 : rest.length + (i + 1 - chunkStart) =
              i + (rest.length + 1) - chunkStart := by omega
          rw [e1, e2] at key
          have e3 : i + 1 + rest.length - (i + 1) = rest.length := by omega
          rw [e3]
          simpa using key
      · rw [if_neg hc]
        have hrne : rest ≠ [] := fun hr => hc (Or.inr (Or.inl hr))
        obtain ⟨ihchain, ihspans⟩ := chunkAux_chain language rest (i + 1)
          chunkStart (cur ++ [line]) (by simp; omega)
          (fun hr => absurd hr hrne)
        refine ⟨ihchain, ?_⟩
        rw [ihspans]
        congr 1
        simp
        omega

/-! Theorems for the claims about the chunker. -/

/-- C1: for every non-empty file content, the chunks returned by the
chunker have line spans that are contiguous — each chunk's start line is
the previous chunk's end line plus one, the first chunk starting at line
0, and no chunk ends before it starts — and, read in order, those spans
concatenate to exactly the ascending interval of line indices
0, 1, ..., lastLineIndex of the file's lines, so they are non-overlapping
in ascending order and their union is exactly that interval. -/
theorem chunk_spans_partition (content : List Char) (language : String)
    (hne : content ≠ []) :
    contiguousFrom 0 (_chunk_content content language) ∧
    chunkSpans (_chunk_content content language) =
      List.range (splitNl content).length := by
  obtain ⟨hchain, hspans⟩ := chunkAux_chain language (splitNl content) 0 0 []
    rfl (fun hnil => absurd hnil (splitNl_ne_nil content))
  refine ⟨hchain, ?_⟩
  unfold _chunk_content
  rw [List.range_eq_range', hspans]
  simp

/-- Witness for C1 at the concrete content "a\n\nb\nc" (four lines). -/
theorem chunk_spans_partition_witness :
    contiguousFrom 0 (_chunk_content ['a', '\n', '\n', 'b', '\n', 'c'] "python") ∧
    chunkSpans (_chunk_content ['a', '\n', '\n', 'b', '\n', 'c'] "python") =
      List.range (splitNl ['a', '\n', '\n', 'b', '\n', 'c']).length :=
  chunk_spans_partition ['a', '\n', '\n', 'b', '\n', 'c'] "python" (by simp)

/-- C3 counterexample: on the empty content the chunker does not return
an empty chunk list (it returns one chunk of empty content spanning line
0, because splitting the empty string on newlines yields one empty
line). -/
theorem chunk_empty_counterexample :
    _chunk_content [] "python" ≠ [] := by
  decide

/-- C3 as amended: for the empty content the chunker returns exactly one
chunk, with empty content, spanning line 0 to line 0. -/
theorem chunk_empty_amended (language : String) :
    _chunk_content [] language =
      [{ content := [], start_line := 0, end_line := 0, language := language }] :=
  rfl

/-- C8: a content consisting of a single line (no newline character)
whose length exceeds the 1000-character threshold yields exactly one
chunk spanning line 0 to line 0 and containing the whole line — the size
limit never truncates a line. -/
theorem chunk_long_single_line (content : List Char) (language : String)
    (h1 : '\n' ∉ content) (h2 : 1000 < content.length) :
    _chunk_content content language =
      [{ content := content, start_line := 0, end_line := 0,
         language := language }] := by
  have hsplit := splitNl_no_newline content h1
  unfold _chunk_content
  rw [hsplit]
  simp only [chunkAux]
  simp [joinNl]

/-- Witness for C8 at a concrete 1001-character line. -/
theorem chunk_long_single_line_witness :
    _chunk_content (List.replicate 1001 'a') "python" =
      [{ content := List.replicate 1001 'a', start_line := 0, end_line := 0,
         language := "python" }] :=
  chunk_long_single_line (List.replicate 1001 'a') "python"
    (by rw [List.mem_replicate]; decide)
    (by rw [List.length_replicate]; omega)

/-- C10: joining the content fields of the chunker's chunks, in order,
with a single newline between consecutive chunks reconstructs the
original content exactly — the chunker is lossless at the content
level. -/
theorem chunk_content_lossless (content : List Char) (language : String) :
    joinNl ((_chunk_content content language).map Chunk.content) = content := by
  unfold _chunk_content
  rw [chunkAux_contents language (splitNl content) 0 0 []
        (splitNl_ne_nil content),
      List.nil_append, joinNl_splitNl]

/-! Helper lemmas about the structural extractor. -/

mutual
theorem fvisit_declFree : ∀ (st : VState) (n : CSTNode),
    declFree n = true → fvisit st n = st
  | st, CSTNode.other children, h => by
      simp only [declFree] at h
      simp only [fvisit]
      exact fvisitList_declFree st children h
  | _, CSTNode.classDef _ _ _ _ _, h => by simp [declFree] at h
  | _, CSTNode.functionDef _ _ _ _ _, h => by simp [declFree] at h
  | _, CSTNode.importStmt _, h => by simp [declFree] at h
  | _, CSTNode.importFrom _ _, h => by simp [declFree] at h

theorem fvisitList_declFree : ∀ (st : VState) (ns : List CSTNode),
    declFreeList ns = true → fvisitList st ns = st
  | _, [], _ => rfl
  | st, n :: ns, h => by
      simp only [declFreeList, Bool.and_eq_true] at h
      simp only [fvisitList]
      rw [fvisit_declFree st n h.1]
      exact fvisitList_declFree st ns h.2
end

/-! Theorems for the claims about the structural extractor. -/

/-- C4 counterexample: for a module with one class holding two direct
method declarations and one module-level function, the module-level
functions list does not have exactly one entry — the framework traversal
re-visits the two method nodes after the class context has been
restored, so they are recorded a second time as module-level
functions. -/
theorem extractor_class_counterexample :
    (runVisitor { body := [CSTNode.classDef "C" none none []
        [CSTNode.functionDef "m1" none none [] [],
         CSTNode.functionDef "m2" none none [] []],
      CSTNode.functionDef "f" none none [] []] }).functions.length ≠ 1 := by
  decide

/-- C4 (amended): for a source file defining one class with two function
declarations directly in its body and one module-level function (their
bodies containing no further declarations), the extractor returns
exactly one ClassInfo whose methods list has exactly the two entries,
but the module-level functions list has three entries: the two methods
again — re-visited at module scope after the class context was
restored — followed by the module-level function. -/
theorem extractor_class_scenario
    (cn : String) (csp cep : Option Nat) (bs : List (Option String))
    (n1 n2 n3 : String) (sp1 ep1 sp2 ep2 sp3 ep3 : Option Nat)
    (ps1 ps2 ps3 : List String) (b1 b2 b3 : List CSTNode)
    (h1 : declFreeList b1 = true) (h2 : declFreeList b2 = true)
    (h3 : declFreeList b3 = true) :
    (runVisitor { body := [CSTNode.classDef cn csp cep bs
        [CSTNode.functionDef n1 sp1 ep1 ps1 b1,
         CSTNode.functionDef n2 sp2 ep2 ps2 b2],
      CSTNode.functionDef n3 sp3 ep3 ps3 b3] }).classes =
      [{ name := cn, start_line := csp.getD 0, end_line := cep.getD 0,
         methods := [{ name := n1, start_line := sp1.getD 0,
                       end_line := ep1.getD 0, parameters := ps1 },
                     { name := n2, start_line := sp2.getD 0,
                       end_line := ep2.getD 0, parameters := ps2 }],
         bases := bs.filterMap id }] ∧
    (runVisitor { body := [CSTNode.classDef cn csp cep bs
        [CSTNode.functionDef n1 sp1 ep1 ps1 b1,
         CSTNode.functionDef n2 sp2 ep2 ps2 b2],
      CSTNode.functionDef n3 sp3 ep3 ps3 b3] }).functions =
      [{ name := n1, start_line := sp1.getD 0, end_line := ep1.getD 0,
         parameters := ps1 },
       { name := n2, start_line := sp2.getD 0, end_line := ep2.getD 0,
         parameters := ps2 },
       { name := n3, start_line := sp3.getD 0, end_line := ep3.getD 0,
         parameters := ps3 }] := by
  simp only [runVisitor, fvisitList, fvisit, visit_ClassDef, visit_FunctionDef,
    List.foldl, modifyIdx]
  rw [fvisitList_declFree _ _ h1, fvisitList_declFree _ _ h2,
      fvisitList_declFree _ _ h3]
  exact ⟨rfl, rfl⟩

/-- Witness for C4 (amended) at a concrete module. -/
theorem extractor_class_scenario_witness :
    (runVisitor { body := [CSTNode.classDef "C" (some 1) (some 5) [some "B"]
        [CSTNode.functionDef "m1" (some 2) (some 3) ["self"] [],
         CSTNode.functionDef "m2" (some 4) (some 5) ["self", "x"] []],
      CSTNode.functionDef "f" (some 7) (some 8) ["y"] []] }).classes =
      [{ name := "C", start_line := 1, end_line := 5,
         methods := [{ name := "m1", start_line := 2, end_line := 3,
                       parameters := ["self"] },
                     { name := "m2", start_line := 4, end_line := 5,
                       parameters := ["self", "x"] }],
         bases := ["B"] }] ∧
    (runVisitor { body := [CSTNode.classDef "C" (some 1) (some 5) [some "B"]
        [CSTNode.functionDef "m1" (some 2) (some 3) ["self"] [],
         CSTNode.functionDef "m2" (some 4) (some 5) ["self", "x"] []],
      CSTNode.functionDef "f" (some 7) (some 8) ["y"] []] }).functions =
      [{ name := "m1", start_line := 2, end_line := 3,
         parameters := ["self"] },
       { name := "m2", start_line := 4, end_line := 5,
         parameters := ["self", "x"] },
       { name := "f", start_line := 7, end_line := 8,
         parameters := ["y"] }] :=
  extractor_class_scenario "C" (some 1) (some 5) [some "B"] "m1" "m2" "f"
    (some 2) (some 3) (some 4) (some 5) (some 7) (some 8)
    ["self"] ["self", "x"] ["y"] [] [] [] rfl rfl rfl

/-- C7 counterexample: a function declared inside a conditional block of
a class body does appear in the extractor output — not as a method, but
as a module-level function, because the framework traversal descends
into the conditional after the class context has been restored. -/
theorem extractor_nested_counterexample :
    { name := "g", start_line := 0, end_line := 0, parameters := [] } ∈
      (runVisitor { body := [CSTNode.classDef "C" none none []
        [CSTNode.other [CSTNode.functionDef "g" none none [] []]]] }).functions := by
  decide

/-- C7 (amended): for a class whose body contains a function declaration
only inside a nested block (not as a direct child of the class body),
the extractor does not capture that function as a method — the class's
methods list is empty — but the function is still included in the
output, recorded as a module-level function by the framework's
re-traversal of the class body. -/
theorem extractor_nested_scenario (cn gn : String)
    (csp cep gsp gep : Option Nat) (bs : List (Option String))
    (gps : List String) (gb : List CSTNode)
    (hg : declFreeList gb = true) :
    (runVisitor { body := [CSTNode.classDef cn csp cep bs
        [CSTNode.other [CSTNode.functionDef gn gsp gep gps gb]]] }).classes =
      [{ name := cn, start_line := csp.getD 0, end_line := cep.getD 0,
         methods := [], bases := bs.filterMap id }] ∧
    (runVisitor { body := [CSTNode.classDef cn csp cep bs
        [CSTNode.other [CSTNode.functionDef gn gsp gep gps gb]]] }).functions =
      [{ name := gn, start_line := gsp.getD 0, end_line := gep.getD 0,
         parameters := gps }] := by
  simp only [runVisitor, fvisitList, fvisit, visit_ClassDef, visit_FunctionDef,
    List.foldl, modifyIdx]
  rw [fvisitList_declFree _ _ hg]
  exact ⟨rfl, rfl⟩

/-- Witness for C7 (amended) at a concrete module. -/
theorem extractor_nested_scenario_witness :
    (runVisitor { body := [CSTNode.classDef "C" (some 1) (some 4) []
        [CSTNode.other [CSTNode.functionDef "g" (some 3) (some 4) ["z"] []]]] }).classes =
      [{ name := "C", start_line := 1, end_line := 4,
         methods := [], bases := [] }] ∧
    (runVisitor { body := [CSTNode.classDef "C" (some 1) (some 4) []
        [CSTNode.other [CSTNode.functionDef "g" (some 3) (some 4) ["z"] []]]] }).functions =
      [{ name := "g", start_line := 3, end_line := 4,
         parameters := ["z"] }] :=
  extractor_nested_scenario "C" "g" (some 1) (some 4) (some 3) (some 4) []
    ["z"] [] rfl

/-- C5 counterexample: on the scenario content
"def f(x):\n    return x\n" the chunker returns its single chunk with
line span 0 to 2, not 0 to 1 — splitting on newlines yields a third,
empty, final line which is included in the chunk. -/
theorem a_py_chunk_counterexample :
    ((_chunk_content a_py_content "python").map
        fun c => (c.start_line, c.end_line)) ≠ [(0, 1)] ∧
    ((_chunk_content a_py_content "python").map
        fun c => (c.start_line, c.end_line)) = [(0, 2)] := by
  exact ⟨by decide, by decide⟩

/-- C5 (amended): for an input directory containing exactly one file
a.py with content "def f(x):\n    return x\n", parse_repository returns
exactly one ParsedFile whose functions list is
[{name f, parameters [x], start_line 1, end_line 2}], whose classes list
is empty, and whose chunks list has exactly one chunk — spanning lines 0
to 2 (the trailing newline produces a final empty line that belongs to
the single chunk), not 0 to 1. -/
theorem a_py_scenario :
    parse_repository "repo"
        (some [{ path := "repo/a.py", ext := ".py",
                 readResult := Except.ok a_py_content }]) a_py_parse =
      Except.ok
        { repository := "repo",
          files := [{ path := "repo/a.py", language := "python",
                      content := a_py_content, error := none,
                      classes := some [],
                      functions := some [{ name := "f", start_line := 1,
                                           end_line := 2,
                                           parameters := ["x"] }],
                      imports := some [],
                      chunks := [{ content := a_py_content, start_line := 0,
                                   end_line := 2,
                                   language := "python" }] }] } :=
  rfl

/-! Helper lemma about the repository walk. -/

theorem walk_foldl_filterMap (pythonParse : List Char → Except String Module) :
    ∀ (files : List FileEntry) (acc : List ParsedFile),
      files.foldl (fun parsed_files f =>
        if (lookupLang (pyLower f.ext)).isSome then
          match parse_file f.path f.ext f.readResult pythonParse with
          | Except.ok pf => parsed_files ++ [pf]
          | Except.error _ => parsed_files
        else parsed_files) acc =
      acc ++ files.filterMap (fun f =>
        if (lookupLang (pyLower f.ext)).isSome then
          (parse_file f.path f.ext f.readResult pythonParse).toOption
        else none)
  | [], acc => by simp
  | f :: fs, acc => by
      simp only [List.foldl_cons, List.filterMap_cons]
      by_cases h : (lookupLang (pyLower f.ext)).isSome
      · rw [if_pos h, if_pos h]
        cases hp : parse_file f.path f.ext f.readResult pythonParse with
        | ok pf =>
            rw [walk_foldl_filterMap pythonParse fs (acc ++ [pf])]
            simp [Except.toOption]
        | error e =>
            rw [walk_foldl_filterMap pythonParse fs acc]
            simp [Except.toOption]
      · rw [if_neg h, if_neg h]
        rw [walk_foldl_filterMap pythonParse fs acc]

/-! Theorems for the claims about the repository walk and per-file error
handling. -/

/-- C2 counterexample: a repository with a single eligible file whose
content read fails with an IOError yields a result in which that file is
absent altogether — it is not present with its error recorded. -/
theorem walk_dropped_file_counterexample :
    parse_repository "repo"
        (some [{ path := "repo/a.py", ext := ".py",
                 readResult := Except.error "IOError: unreadable" }])
        (fun _ => Except.error "unused") =
      Except.ok { repository := "repo", files := [] } :=
  rfl

/-- C2 (amended): any failure raised while parsing a single eligible
file (including an IOError reading its content) is caught locally and
never aborts the traversal, but the failing file is dropped from the
returned result rather than recorded with an error: the walk returns,
in order, exactly the eligible files whose per-file parse succeeded.
(Only structural-extraction failures, which are handled inside the
python path and never reach the walker, produce a ParsedFile with its
error field set.) -/
theorem walk_failure_isolation (repo_path : String) (files : List FileEntry)
    (pythonParse : List Char → Except String Module) :
    parse_repository repo_path (some files) pythonParse =
      Except.ok
        { repository := repo_path,
          files := files.filterMap fun f =>
            if (lookupLang (pyLower f.ext)).isSome then
              (parse_file f.path f.ext f.readResult pythonParse).toOption
            else none } := by
  simp only [parse_repository]
  rw [walk_foldl_filterMap pythonParse files []]
  rw [List.nil_append]

/-- C6: a python file whose structural parse fails produces a ParsedFile
with the error message set, the raw content and its chunks populated,
and none of the structural fields present; moreover on every ParsedFile
that parse_file can return, a set error excludes all structural fields,
and the chunks are always computed from the raw content. -/
theorem python_error_isolation (path ext : String)
    (readResult : Except String (List Char))
    (pythonParse : List Char → Except String Module) (pf : ParsedFile)
    (h : parse_file path ext readResult pythonParse = Except.ok pf)
    (p2 : String) (content : List Char) (e : String) :
    ((_parse_python_file p2 content (Except.error e)).error = some e ∧
     (_parse_python_file p2 content (Except.error e)).content = content ∧
     (_parse_python_file p2 content (Except.error e)).chunks =
       _chunk_content content "python" ∧
     (_parse_python_file p2 content (Except.error e)).classes = none ∧
     (_parse_python_file p2 content (Except.error e)).functions = none ∧
     (_parse_python_file p2 content (Except.error e)).imports = none) ∧
    (pf.error.isSome = true →
      pf.classes = none ∧ pf.functions = none ∧ pf.imports = none) ∧
    pf.chunks = _chunk_content pf.content pf.language := by
  refine ⟨⟨rfl, rfl, rfl, rfl, rfl, rfl⟩, ?_⟩
  simp only [parse_file] at h
  cases hl : lookupLang (pyLower ext) with
  | none =>
      rw [hl] at h
      have h2 : (Except.error ("Unsupported file type: " ++ pyLower ext) :
          Except String ParsedFile) = Except.ok pf := h
      simp at h2
  | some language =>
      rw [hl] at h
      cases readResult with
      | error e2 =>
          have h2 : (Except.error e2 : Except String ParsedFile) =
              Except.ok pf := h
          simp at h2
      | ok content2 =>
          have h2 : (if language = "python" then
                Except.ok (_parse_python_file path content2
                  (pythonParse content2))
              else Except.ok (_parse_generic_file path content2 language)) =
              Except.ok pf := h
          by_cases hpy : language = "python"
          · rw [if_pos hpy] at h2
            have hpf : _parse_python_file path content2 (pythonParse content2)
                = pf := by
              injection h2
            subst hpf
            cases pythonParse content2 with
            | ok m => simp [_parse_python_file]
            | error e3 => simp [_parse_python_file]
          · rw [if_neg hpy] at h2
            have hpf : _parse_generic_file path content2 language = pf := by
              injection h2
            subst hpf
            simp [_parse_generic_file]

/-- Witness for C6: a python file whose read succeeded but whose
structural parse fails, checked at concrete inputs. -/
theorem python_error_isolation_witness :
    ((_parse_python_file "b.py" ['x'] (Except.error "boom")).error =
        some "boom" ∧
     (_parse_python_file "b.py" ['x'] (Except.error "boom")).content = ['x'] ∧
     (_parse_python_file "b.py" ['x'] (Except.error "boom")).chunks =
       _chunk_content ['x'] "python" ∧
     (_parse_python_file "b.py" ['x'] (Except.error "boom")).classes = none ∧
     (_parse_python_file "b.py" ['x'] (Except.error "boom")).functions = none ∧
     (_parse_python_file "b.py" ['x'] (Except.error "boom")).imports = none) ∧
    ((_parse_python_file "a.py" ['x']
        (Except.error "bad")).error.isSome = true →
      (_parse_python_file "a.py" ['x'] (Except.error "bad")).classes = none ∧
      (_parse_python_file "a.py" ['x'] (Except.error "bad")).functions = none ∧
      (_parse_python_file "a.py" ['x'] (Except.error "bad")).imports = none) ∧
    (_parse_python_file "a.py" ['x'] (Except.error "bad")).chunks =
      _chunk_content (_parse_python_file "a.py" ['x']
          (Except.error "bad")).content
        (_parse_python_file "a.py" ['x'] (Except.error "bad")).language :=
  python_error_isolation "a.py" ".py" (Except.ok ['x'])
    (fun _ => Except.error "bad")
    (_parse_python_file "a.py" ['x'] (Except.error "bad")) rfl
    "b.py" ['x'] "boom"

/-- C9: when the walked root does not exist, parse_repository fails with
the path-not-found error, no file entering into the outcome, and this is
the only abort: for every existing root the walk returns a result. -/
theorem missing_root_aborts (repo_path : String)
    (pythonParse : List Char → Except String Module) :
    parse_repository repo_path none pythonParse =
      Except.error ("Repository path does not exist: " ++ repo_path) ∧
    ∀ files : List FileEntry, ∃ r,
      parse_repository repo_path (some files) pythonParse = Except.ok r :=
  ⟨rfl, fun _ => ⟨_, rfl⟩⟩

end CodeParser
